import Mathlib

/-!
Shallow embedding of `src_MTO/eaAlgorithm.py` (classes `eaAlgorithm` and
`MTOsogaAlgorithm`) from the MFEAIM repository.

Modelling conventions:
* All per-task arrays (`self.currentGen[i]`, `self.BestIndi[i]`, ...) are
  indexed at one fixed task index `i` throughout every method, and tasks share
  no state, so the embedding works with the slice of the algorithm state at a
  single task: the structure `AlgoState` below.  The task index `i` is kept as
  an explicit parameter where the source reads it (console banner).
* `time.time()` is modelled by an explicit wall-clock parameter `now : ℚ`;
  each bracketed accounting step `passTime += time.time() - timeSlot;
  timeSlot = time.time()` becomes the pure update `tick`.
* The template is single-objective (`MTOsogaAlgorithm`), so a population's
  objective matrix `ObjV` (shape n × 1) is modelled as one rational per
  individual; `problem[i].maxormins` is an optional scalar sign.
* Numeric values are rationals.  NaN/Inf classification, which only the
  diagnostic `check` method inspects, is modelled separately by `FVal`
  matrices (`CheckPop`).
-/

namespace MFEAIM

/-- Classification of a floating-point entry as far as `eaAlgorithm.check`
is concerned: an ordinary number, a NaN, or an infinity (sign irrelevant,
`np.isinf` is sign-blind). -/
inductive FVal where
  | num (q : ℚ)
  | nan
  | inf
deriving DecidableEq

def FVal.isNaN : FVal → Bool
  | .nan => true
  | _ => false

def FVal.isInf : FVal → Bool
  | .inf => true
  | _ => false

/-- The view of a population that `eaAlgorithm.check` reads: the raw `ObjV`
matrix and the optional `CV` matrix, entries classified as number/NaN/Inf. -/
structure CheckPop where
  ObjV : List (List FVal)
  CV : Option (List (List FVal))
deriving DecidableEq

/-- Embeds `np.any(np.isnan(m))`. -/
def hasNaN (m : List (List FVal)) : Bool :=
  m.any (fun row => row.any FVal.isNaN)

/-- Embeds `np.any(np.isinf(m))`. -/
def hasInf (m : List (List FVal)) : Bool :=
  m.any (fun row => row.any FVal.isInf)

/-- The four `RuntimeWarning`s `eaAlgorithm.check` can emit. -/
inductive Warn where
  | objvNaN
  | objvInf
  | cvNaN
  | cvInf
deriving DecidableEq

def Warn.aboutObjV : Warn → Bool
  | .objvNaN => true
  | .objvInf => true
  | _ => false

def Warn.aboutCV : Warn → Bool
  | .cvNaN => true
  | .cvInf => true
  | _ => false

/-- Embeds `eaAlgorithm.check(pop)` (eaAlgorithm.py lines 101-129): emits warnings
about NaN/Inf entries of `ObjV` and `CV`.  The `elif` structure means the Inf
branch of a matrix is only reached when that matrix has no NaN.  The method
only warns: it never raises and never writes to the population, which the
embedding expresses by returning just the warning list. -/
def check (pop : CheckPop) : List Warn :=
  (if hasNaN pop.ObjV then [Warn.objvNaN]
   else if hasInf pop.ObjV then [Warn.objvInf]
   else [])
  ++
  (match pop.CV with
   | none => []
   | some cv =>
     if hasNaN cv then [Warn.cvNaN]
     else if hasInf cv then [Warn.cvInf]
     else [])

/-- Shape metadata of the array a user-supplied `aimFunc` left in `pop.ObjV`
or `pop.CV`; this is exactly what the format check in `call_aimFunc` reads
(`isinstance(_, np.ndarray)`, `.ndim`, `.shape[0]`, `.shape[1]`). -/
structure NdMeta where
  isNdarray : Bool
  ndim : Nat
  shape0 : Nat
  shape1 : Nat
deriving DecidableEq

/-- Outcome of one user evaluation call: the arrays it stored in `pop.ObjV`
and (optionally) `pop.CV`. -/
structure EvalResult where
  ObjV : NdMeta
  CV : Option NdMeta
deriving DecidableEq

/-- The part of the bound problem object that `call_aimFunc` reads: the
declared objective count `M`. -/
structure ProblemSig where
  M : Nat
deriving DecidableEq

/-- The `ObjV` postcondition of `call_aimFunc` (eaAlgorithm.py lines 158-159). -/
def legalObjV (o : NdMeta) (n M : Nat) : Prop :=
  o.isNdarray = true ∧ o.ndim = 2 ∧ o.shape0 = n ∧ o.shape1 = M

/-- The `CV` postcondition of `call_aimFunc` (eaAlgorithm.py line 162). -/
def legalCV (c : NdMeta) (n : Nat) : Prop :=
  c.isNdarray = true ∧ c.ndim = 2 ∧ c.shape0 = n

instance (o : NdMeta) (n M : Nat) : Decidable (legalObjV o n M) := by
  unfold legalObjV; infer_instance

instance (c : NdMeta) (n : Nat) : Decidable (legalCV c n) := by
  unfold legalCV; infer_instance

/-- Embeds `eaAlgorithm.call_aimFunc(pop, i)` (eaAlgorithm.py lines 131-163).
Chromosome decoding and the user `aimFunc` are external collaborators; the
evaluation's effect on the population is the input `res`.  Returns the new
value of `evalsNum[i]` on success and the raised error message otherwise.
Note the source updates `evalsNum[i]` (treating a `None` counter as 0)
before the format checks, so the returned counter on success is
`evalsNum.getD 0 + popSizes`. -/
def call_aimFunc (problem : Option ProblemSig) (evalsNum : Option Nat)
    (popSizes : Nat) (res : EvalResult) : Except String Nat :=
  match problem with
  | none => Except.error ("error: problem is None")
  | some pr =>
    let newEvals := match evalsNum with
      | some n => n + popSizes
      | none => popSizes
    if ¬ legalObjV res.ObjV popSizes pr.M then
      Except.error ("error: ObjV is illegal")
    else
      match res.CV with
      | some cvm =>
        if ¬ legalCV cvm popSizes then Except.error ("error: CV is illegal")
        else Except.ok newEvals
      | none => Except.ok newEvals

/-- The view of a population that `MTOsogaAlgorithm` reads: its size, the
single-objective column of `ObjV` (one rational per individual), the optional
constraint-violation matrix `CV`, and the fitness column `FitnV`. -/
structure Pop where
  sizes : Nat
  ObjV : List ℚ
  CV : Option (List (List ℚ))
  FitnV : List ℚ
deriving DecidableEq

/-- Embeds `ea.Population(None, None, 0)`: the empty sentinel population. -/
def emptyPop : Pop :=
  { sizes := 0, ObjV := [], CV := none, FitnV := [] }

/-- Embeds `np.where(np.all(pop.CV <= 0, 1))[0] if pop.CV is not None else
np.arange(pop.sizes)` (eaAlgorithm.py lines 355 and 417): the indices of the
feasible individuals, in increasing order. -/
def feasibleIdx (p : Pop) : List Nat :=
  match p.CV with
  | none => List.range p.sizes
  | some cv =>
    (List.range cv.length).filter
      (fun k => (cv.getD k []).all (fun v => decide (v ≤ 0)))

/-- Fancy indexing `pop[idx]`: the subpopulation at the given row indices.
Under the length invariants (`ObjV`, `FitnV`, `CV` all have `sizes` rows) the
`getD` defaults are never reached for indices produced by `feasibleIdx`. -/
def subPop (p : Pop) (idx : List Nat) : Pop :=
  { sizes := idx.length
  , ObjV := idx.map (fun k => p.ObjV.getD k 0)
  , CV := p.CV.map (fun cv => idx.map (fun k => cv.getD k []))
  , FitnV := idx.map (fun k => p.FitnV.getD k 0) }

def argmaxAux : List ℚ → Nat → Nat → ℚ → Nat
  | [], _, bi, _ => bi
  | v :: vs, i, bi, bv =>
    if bv < v then argmaxAux vs (i + 1) i v else argmaxAux vs (i + 1) bi bv

/-- Embeds `np.argmax`: index of the first occurrence of the maximum (0 on an empty
list; the source only applies it to a non-empty feasible subpopulation). -/
def argmaxIdx : List ℚ → Nat
  | [] => 0
  | v :: vs => argmaxAux vs 1 0 v

/-- Embeds `pop[feasible]`: the feasible subpopulation. -/
def feasSub (pop : Pop) : Pop :=
  subPop pop (feasibleIdx pop)

/-- Embeds `feasiblePop[np.argmax(feasiblePop.FitnV)]` (eaAlgorithm.py line 358):
the generation's best feasible individual, as a size-1 population. -/
def genBest (pop : Pop) : Pop :=
  subPop (feasSub pop) [argmaxIdx (feasSub pop).FitnV]

/-- Embeds `np.max` on a non-empty list (0 on empty; never reached). -/
def npMax : List ℚ → ℚ
  | [] => 0
  | v :: vs => vs.foldl max v

/-- Embeds `np.min` on a non-empty list (0 on empty; never reached). -/
def npMin : List ℚ → ℚ
  | [] => 0
  | v :: vs => vs.foldl min v

/-- Embeds `np.mean`. -/
def npMean (l : List ℚ) : ℚ :=
  l.sum / (l.length : ℚ)

/-- The square of `np.std`, i.e. the population variance.  The source stores
`np.std` itself in the `f_std` log series; its value is a square root and in
general irrational, and no claim reads the stored number — only the presence
and cadence of log records matter — so the embedding records the variance. -/
def npVarSq (l : List ℚ) : ℚ :=
  npMean (l.map (fun v => (v - npMean l) ^ 2))

/-- The `f_best` / `f_avg` evolution recorder `self.trace[i]`. -/
structure TraceRec where
  f_best : List ℚ
  f_avg : List ℚ
deriving DecidableEq

/-- The per-task log dictionary `self.log[i]`.  The source declares the five
`f_*` keys lazily on the first `logging` call; here all seven series always
exist and the lazily-declared ones are empty exactly as long as `gen` is
(everything is append-only and appended together).  When `logTras[i] = 0` the
source stores `None` instead of a dictionary and never touches it; the
embedding keeps the untouched empty dictionary in that case. -/
structure LogDict where
  gen : List Nat
  eval : List Nat
  f_opt : List ℚ
  f_max : List ℚ
  f_avg : List ℚ
  f_min : List ℚ
  f_std : List ℚ
deriving DecidableEq

def emptyLog : LogDict :=
  { gen := [], eval := [], f_opt := [], f_max := [], f_avg := [], f_min := [], f_std := [] }

/-- The slice at one fixed task index `i` of the `MTOsogaAlgorithm` object:
configuration fields first (read-only during a run), then the dynamic
per-task state. -/
structure AlgoState where
  MAXGEN : Nat
  MAXTIME : Option ℚ
  maxTrappedCount : Nat
  trappedValue : ℚ
  logTras : Nat
  verbose : Bool
  maxormins : Option ℚ
  currentGen : Nat
  evalsNum : Nat
  passTime : ℚ
  timeSlot : ℚ
  trappedCount : Nat
  BestIndi : Pop
  trace : TraceRec
  log : LogDict
deriving DecidableEq

/-- One `passTime[i] += time.time() - timeSlot[i]; timeSlot[i] = time.time()`
bracket, with both clock reads modelled by the same `now`. -/
def tick (s : AlgoState) (now : ℚ) : AlgoState :=
  { s with passTime := s.passTime + (now - s.timeSlot), timeSlot := now }

/-- Embeds `MTOsogaAlgorithm.initialization()` (eaAlgorithm.py lines 257-276),
restricted to the task-`i` slice (the plot handle `ax` is presentational and
not modelled). -/
def initialization (s : AlgoState) (now : ℚ) : AlgoState :=
  { s with passTime := 0, trappedCount := 0, currentGen := 0, evalsNum := 0,
           BestIndi := emptyPop, log := emptyLog,
           trace := { f_best := [], f_avg := [] }, timeSlot := now }

/-- Embeds `MTOsogaAlgorithm.logging(pop, i)` (eaAlgorithm.py lines 278-304): a
time-accounting bracket around appending one record of all seven series.
The lazy key declaration (lines 291-296) adds empty lists and is a no-op on
the always-present fields of `LogDict`. -/
def logging (s : AlgoState) (pop : Pop) (now : ℚ) : AlgoState :=
  let s1 := tick s now
  { s1 with log :=
      { gen := s1.log.gen ++ [s1.currentGen]
      , eval := s1.log.eval ++ [s1.evalsNum]
      , f_opt := s1.log.f_opt ++ [s1.BestIndi.ObjV.getD 0 0]
      , f_max := s1.log.f_max ++ [npMax pop.ObjV]
      , f_avg := s1.log.f_avg ++ [npMean pop.ObjV]
      , f_min := s1.log.f_min ++ [npMin pop.ObjV]
      , f_std := s1.log.f_std ++ [npVarSq pop.ObjV] } }

/-- What one `display(i)` call prints: the task banner, optionally the header
block, optionally the last table row.  Cell formatting (column widths, the
`%.5E` float format) is presentational and not modelled beyond the
value-or-dash content. -/
inductive RenderItem where
  | taskBanner (n : Nat)
  | headerBlock (headers : List String)
  | row (cells : List String)
deriving DecidableEq

/-- The keys of `self.log[i]` in insertion order: `gen`, `eval` always, the
five `f_*` keys once `logging` has run at least once (observable as `gen`
being non-empty, since the log is append-only). -/
def displayKeys (L : LogDict) : List String :=
  if L.gen.isEmpty then ["gen", "eval"]
  else ["gen", "eval", "f_opt", "f_max", "f_avg", "f_min", "f_std"]

/-- Embeds `self.log[i][key][-1] if len(self.log[i][key]) != 0 else "-"`. -/
def lastCell {α : Type} [ToString α] (l : List α) : String :=
  match l.getLast? with
  | none => "-"
  | some v => toString v

/-- The row cells of `display(i)`, one per key of `displayKeys`. -/
def displayCells (L : LogDict) : List String :=
  if L.gen.isEmpty then [lastCell L.gen, lastCell L.eval]
  else [lastCell L.gen, lastCell L.eval, lastCell L.f_opt, lastCell L.f_max,
        lastCell L.f_avg, lastCell L.f_min, lastCell L.f_std]

/-- The console output of `eaAlgorithm.display(i)` (eaAlgorithm.py lines
165-203): the banner line naming task `i+1` is printed unconditionally,
the header block only when the `gen` series has exactly one entry, the last
table row only when it is non-empty. -/
def displayRender (i : Nat) (s : AlgoState) : List RenderItem :=
  [RenderItem.taskBanner (i + 1)]
  ++ (if s.log.gen.length = 1 then [RenderItem.headerBlock (displayKeys s.log)] else [])
  ++ (if s.log.gen.length ≠ 0 then [RenderItem.row (displayCells s.log)] else [])

/-- Embeds `eaAlgorithm.display(i)`: the printed items and the state effect, which
is exactly the time-accounting bracket. -/
def display (i : Nat) (s : AlgoState) (now : ℚ) : List RenderItem × AlgoState :=
  (displayRender i s, tick s now)

/-- Embeds `MTOsogaAlgorithm.draw(pop, i)` with `EndFlag=False` (eaAlgorithm.py
lines 319-329): a time-accounting bracket; the actual plotting (modes 2/3)
only writes the external plot handle `ax`, which is not modelled. -/
def draw (s : AlgoState) (now : ℚ) : AlgoState :=
  tick s now

/-- Embeds `(self.BestIndi[i].ObjV - bestIndi.ObjV) * self.problem[i].maxormins if
self.problem[i].maxormins is not None else self.BestIndi[i].ObjV -
bestIndi.ObjV` (eaAlgorithm.py lines 362-363), for the 1×1 single-objective
matrices. -/
def statDelta (s : AlgoState) (bestIndi : Pop) : ℚ :=
  match s.maxormins with
  | some m => (s.BestIndi.ObjV.getD 0 0 - bestIndi.ObjV.getD 0 0) * m
  | none => s.BestIndi.ObjV.getD 0 0 - bestIndi.ObjV.getD 0 0

/-- eaAlgorithm.py lines 359-368: adopt the generation best unconditionally
when the global best is still the empty sentinel; otherwise bump the
stagnation counter when `|delta| < trappedValue` and replace the global best
when `delta > 0`. -/
def statBestUpdate (s : AlgoState) (bestIndi : Pop) : AlgoState :=
  if s.BestIndi.sizes = 0 then
    { s with BestIndi := bestIndi }
  else
    let delta := statDelta s bestIndi
    let s1 := { s with trappedCount :=
                  s.trappedCount + (if |delta| < s.trappedValue then 1 else 0) }
    if delta > 0 then { s1 with BestIndi := bestIndi } else s1

/-- eaAlgorithm.py lines 370-371: append to the trace. -/
def statTraceUpdate (s : AlgoState) (bestIndi feasiblePop : Pop) : AlgoState :=
  { s with trace :=
      { f_best := s.trace.f_best ++ [bestIndi.ObjV.getD 0 0]
      , f_avg := s.trace.f_avg ++ [npMean feasiblePop.ObjV] } }

/-- eaAlgorithm.py lines 372-375: on the logging cadence, append a log record
and, if verbose, print it. -/
def statLogUpdate (s : AlgoState) (feasiblePop : Pop) (i : Nat) (now : ℚ) : AlgoState :=
  if s.logTras ≠ 0 ∧ s.currentGen % s.logTras = 0 then
    let s1 := logging s feasiblePop now
    if s1.verbose then (display i s1 now).2 else s1
  else s

/-- Embeds `MTOsogaAlgorithm.stat(pop, i)` (eaAlgorithm.py lines 342-376): a silent
no-op when no individual is feasible; otherwise best-update, trace append,
cadenced logging/printing, and the drawing bracket. -/
def stat (s : AlgoState) (pop : Pop) (i : Nat) (now : ℚ) : AlgoState :=
  if (feasibleIdx pop).length > 0 then
    draw (statLogUpdate
            (statTraceUpdate (statBestUpdate s (genBest pop)) (genBest pop) (feasSub pop))
            (feasSub pop) i now) now
  else s

/-- The stop test of eaAlgorithm.py lines 395-396. -/
def stopCond (s : AlgoState) : Bool :=
  (match s.MAXTIME with
   | some t => decide (s.passTime ≥ t)
   | none => false)
  || decide (s.currentGen + 1 ≥ s.MAXGEN)
  || decide (s.trappedCount ≥ s.maxTrappedCount)

/-- Embeds `MTOsogaAlgorithm.terminated(pop, i)` (eaAlgorithm.py lines 378-400).
`check(pop)` runs first but only emits warnings (modelled separately by
`check`, no state effect), then `stat`, then the time bracket, then the stop
test; a non-terminal call increments `currentGen[i]`. -/
def terminated (s : AlgoState) (pop : Pop) (i : Nat) (now : ℚ) : Bool × AlgoState :=
  let s1 := tick (stat s pop i now) now
  if stopCond s1 then (true, s1)
  else (false, { s1 with currentGen := s1.currentGen + 1 })

/-- Embeds `MTOsogaAlgorithm.finishing(pop, i)` (eaAlgorithm.py lines 402-427): an
optional flush of a final log record (guarded against double-logging the
current generation), a final `passTime` update without a checkpoint reset,
the final drawing call (pure plotting, no state effect), and the return value
`[self.BestIndi[i], pop]`. -/
def finishing (s : AlgoState) (pop : Pop) (i : Nat) (now : ℚ) :
    (Pop × Pop) × AlgoState :=
  let s1 :=
    if (feasibleIdx pop).length > 0 then
      if s.logTras ≠ 0 ∧ (s.log.gen = [] ∨ s.log.gen.getLast? ≠ some s.currentGen) then
        let s2 := logging s (feasSub pop) now
        if s2.verbose then (display i s2 now).2 else s2
      else s
    else s
  let s3 := { s1 with passTime := s1.passTime + (now - s1.timeSlot) }
  ((s3.BestIndi, pop), s3)

/-- The signed-delta-adjusted objective of a stored best individual: the
quantity that literal replacement (`delta > 0`) makes non-increasing.  With a
declared direction sign this is `ObjV[0][0] * maxormins`; without one it is
the raw objective (the source then compares raw differences). -/
def adjObj (s : AlgoState) (b : Pop) : ℚ :=
  match s.maxormins with
  | some m => b.ObjV.getD 0 0 * m
  | none => b.ObjV.getD 0 0

/-- A one-individual unconstrained population used in concrete scenarios. -/
def demoPop : Pop :=
  { sizes := 1, ObjV := [5], CV := none, FitnV := [1] }

/-- A fully infeasible population (its one CV row has a positive entry). -/
def infeasPop : Pop :=
  { sizes := 1, ObjV := [2], CV := some [[1]], FitnV := [1] }

/-- A task configuration for concrete scenarios: `MAXGEN = 11`, no time
budget, `logTras = 3`, `trappedValue = 0`, `maxTrappedCount = 1000`. -/
def demoConfig : AlgoState :=
  { MAXGEN := 11, MAXTIME := none, maxTrappedCount := 1000, trappedValue := 0,
    logTras := 3, verbose := true, maxormins := none,
    currentGen := 0, evalsNum := 0, passTime := 0, timeSlot := 0,
    trappedCount := 0, BestIndi := emptyPop,
    trace := { f_best := [], f_avg := [] }, log := emptyLog }

/-- A state with a non-empty stored best (objective 7, maximormins = +1,
`trappedValue = 1`), for exercising the delta branches. -/
def bestConfig : AlgoState :=
  { demoConfig with
      BestIndi := { sizes := 1, ObjV := [7], CV := none, FitnV := [1] },
      maxormins := some 1, trappedValue := 1 }

/-- Runs `n` successive generations of `demoPop` driven through `terminated`,
starting from a freshly initialized `demoConfig` task (all clock readings 0). -/
def demoRun (n : Nat) : AlgoState :=
  (List.range n).foldl (fun st _ => (terminated st demoPop 0 0).2)
    (initialization demoConfig 0)

/-- A state whose log already holds a record for the current generation 0. -/
def loggedState : AlgoState :=
  { demoConfig with log := { emptyLog with gen := [0], eval := [0] } }

/-! Helper lemmas: which fields each state operation leaves untouched. -/

@[simp] theorem tick_MAXGEN (s : AlgoState) (now : ℚ) : (tick s now).MAXGEN = s.MAXGEN := rfl

@[simp] theorem tick_MAXTIME (s : AlgoState) (now : ℚ) : (tick s now).MAXTIME = s.MAXTIME := rfl

@[simp] theorem tick_maxTrappedCount (s : AlgoState) (now : ℚ) : (tick s now).maxTrappedCount = s.maxTrappedCount := rfl

@[simp] theorem tick_trappedValue (s : AlgoState) (now : ℚ) : (tick s now).trappedValue = s.trappedValue := rfl

@[simp] theorem tick_logTras (s : AlgoState) (now : ℚ) : (tick s now).logTras = s.logTras := rfl

@[simp] theorem tick_verbose (s : AlgoState) (now : ℚ) : (tick s now).verbose = s.verbose := rfl

@[simp] theorem tick_maxormins (s : AlgoState) (now : ℚ) : (tick s now).maxormins = s.maxormins := rfl

@[simp] theorem tick_currentGen (s : AlgoState) (now : ℚ) : (tick s now).currentGen = s.currentGen := rfl

@[simp] theorem tick_evalsNum (s : AlgoState) (now : ℚ) : (tick s now).evalsNum = s.evalsNum := rfl

@[simp] theorem tick_trappedCount (s : AlgoState) (now : ℚ) : (tick s now).trappedCount = s.trappedCount := rfl

@[simp] theorem tick_BestIndi (s : AlgoState) (now : ℚ) : (tick s now).BestIndi = s.BestIndi := rfl

@[simp] theorem tick_trace (s : AlgoState) (now : ℚ) : (tick s now).trace = s.trace := rfl

@[simp] theorem tick_log (s : AlgoState) (now : ℚ) : (tick s now).log = s.log := rfl

@[simp] theorem logging_MAXGEN (s : AlgoState) (p : Pop) (now : ℚ) : (logging s p now).MAXGEN = s.MAXGEN := rfl

@[simp] theorem logging_MAXTIME (s : AlgoState) (p : Pop) (now : ℚ) : (logging s p now).MAXTIME = s.MAXTIME := rfl

@[simp] theorem logging_maxTrappedCount (s : AlgoState) (p : Pop) (now : ℚ) : (logging s p now).maxTrappedCount = s.maxTrappedCount := rfl

@[simp] theorem logging_trappedValue (s : AlgoState) (p : Pop) (now : ℚ) : (logging s p now).trappedValue = s.trappedValue := rfl

@[simp] theorem logging_logTras (s : AlgoState) (p : Pop) (now : ℚ) : (logging s p now).logTras = s.logTras := rfl

@[simp] theorem logging_verbose (s : AlgoState) (p : Pop) (now : ℚ) : (logging s p now).verbose = s.verbose := rfl

@[simp] theorem logging_maxormins (s : AlgoState) (p : Pop) (now : ℚ) : (logging s p now).maxormins = s.maxormins := rfl

@[simp] theorem logging_currentGen (s : AlgoState) (p : Pop) (now : ℚ) : (logging s p now).currentGen = s.currentGen := rfl

@[simp] theorem logging_evalsNum (s : AlgoState) (p : Pop) (now : ℚ) : (logging s p now).evalsNum = s.evalsNum := rfl

@[simp] theorem logging_trappedCount (s : AlgoState) (p : Pop) (now : ℚ) : (logging s p now).trappedCount = s.trappedCount := rfl

@[simp] theorem logging_BestIndi (s : AlgoState) (p : Pop) (now : ℚ) : (logging s p now).BestIndi = s.BestIndi := rfl

@[simp] theorem logging_trace (s : AlgoState) (p : Pop) (now : ℚ) : (logging s p now).trace = s.trace := rfl

@[simp] theorem logging_log_gen (s : AlgoState) (p : Pop) (now : ℚ) : (logging s p now).log.gen = s.log.gen ++ [s.currentGen] := rfl

@[simp] theorem display_state (i : Nat) (s : AlgoState) (now : ℚ) : (display i s now).2 = tick s now := rfl

@[simp] theorem draw_eq (s : AlgoState) (now : ℚ) : draw s now = tick s now := rfl

theorem statBestUpdate_eq (s : AlgoState) (b : Pop) :
    statBestUpdate s b =
      if s.BestIndi.sizes = 0 then { s with BestIndi := b }
      else if statDelta s b > 0 then
        { s with
            trappedCount := s.trappedCount + (if |statDelta s b| < s.trappedValue then 1 else 0),
            BestIndi := b }
      else
        { s with
            trappedCount := s.trappedCount + (if |statDelta s b| < s.trappedValue then 1 else 0) } := rfl

theorem statBestUpdate_empty (s : AlgoState) (b : Pop) (h : s.BestIndi.sizes = 0) :
    statBestUpdate s b = { s with BestIndi := b } := by
  rw [statBestUpdate_eq]; simp [h]

theorem statBestUpdate_pos (s : AlgoState) (b : Pop) (h : ¬ s.BestIndi.sizes = 0)
    (hd : statDelta s b > 0) :
    statBestUpdate s b =
      { s with
          trappedCount := s.trappedCount + (if |statDelta s b| < s.trappedValue then 1 else 0),
          BestIndi := b } := by
  rw [statBestUpdate_eq]; simp [h, hd]

theorem statBestUpdate_nonpos (s : AlgoState) (b : Pop) (h : ¬ s.BestIndi.sizes = 0)
    (hd : ¬ statDelta s b > 0) :
    statBestUpdate s b =
      { s with
          trappedCount := s.trappedCount + (if |statDelta s b| < s.trappedValue then 1 else 0) } := by
  rw [statBestUpdate_eq]; simp [h, hd]

@[simp] theorem statBestUpdate_currentGen (s : AlgoState) (b : Pop) :
    (statBestUpdate s b).currentGen = s.currentGen := by
  rw [statBestUpdate_eq]; split
  · rfl
  · split <;> rfl

@[simp] theorem statBestUpdate_evalsNum (s : AlgoState) (b : Pop) :
    (statBestUpdate s b).evalsNum = s.evalsNum := by
  rw [statBestUpdate_eq]; split
  · rfl
  · split <;> rfl

@[simp] theorem statBestUpdate_MAXGEN (s : AlgoState) (b : Pop) :
    (statBestUpdate s b).MAXGEN = s.MAXGEN := by
  rw [statBestUpdate_eq]; split
  · rfl
  · split <;> rfl

@[simp] theorem statBestUpdate_MAXTIME (s : AlgoState) (b : Pop) :
    (statBestUpdate s b).MAXTIME = s.MAXTIME := by
  rw [statBestUpdate_eq]; split
  · rfl
  · split <;> rfl

@[simp] theorem statBestUpdate_maxTrappedCount (s : AlgoState) (b : Pop) :
    (statBestUpdate s b).maxTrappedCount = s.maxTrappedCount := by
  rw [statBestUpdate_eq]; split
  · rfl
  · split <;> rfl

@[simp] theorem statBestUpdate_trappedValue (s : AlgoState) (b : Pop) :
    (statBestUpdate s b).trappedValue = s.trappedValue := by
  rw [statBestUpdate_eq]; split
  · rfl
  · split <;> rfl

@[simp] theorem statBestUpdate_logTras (s : AlgoState) (b : Pop) :
    (statBestUpdate s b).logTras = s.logTras := by
  rw [statBestUpdate_eq]; split
  · rfl
  · split <;> rfl

@[simp] theorem statBestUpdate_verbose (s : AlgoState) (b : Pop) :
    (statBestUpdate s b).verbose = s.verbose := by
  rw [statBestUpdate_eq]; split
  · rfl
  · split <;> rfl

@[simp] theorem statBestUpdate_maxormins (s : AlgoState) (b : Pop) :
    (statBestUpdate s b).maxormins = s.maxormins := by
  rw [statBestUpdate_eq]; split
  · rfl
  · split <;> rfl

@[simp] theorem statBestUpdate_passTime (s : AlgoState) (b : Pop) :
    (statBestUpdate s b).passTime = s.passTime := by
  rw [statBestUpdate_eq]; split
  · rfl
  · split <;> rfl

@[simp] theorem statBestUpdate_timeSlot (s : AlgoState) (b : Pop) :
    (statBestUpdate s b).timeSlot = s.timeSlot := by
  rw [statBestUpdate_eq]; split
  · rfl
  · split <;> rfl

@[simp] theorem statBestUpdate_trace (s : AlgoState) (b : Pop) :
    (statBestUpdate s b).trace = s.trace := by
  rw [statBestUpdate_eq]; split
  · rfl
  · split <;> rfl

@[simp] theorem statBestUpdate_log (s : AlgoState) (b : Pop) :
    (statBestUpdate s b).log = s.log := by
  rw [statBestUpdate_eq]; split
  · rfl
  · split <;> rfl

@[simp] theorem statTraceUpdate_MAXGEN (s : AlgoState) (b f : Pop) :
    (statTraceUpdate s b f).MAXGEN = s.MAXGEN := rfl

@[simp] theorem statTraceUpdate_MAXTIME (s : AlgoState) (b f : Pop) :
    (statTraceUpdate s b f).MAXTIME = s.MAXTIME := rfl

@[simp] theorem statTraceUpdate_maxTrappedCount (s : AlgoState) (b f : Pop) :
    (statTraceUpdate s b f).maxTrappedCount = s.maxTrappedCount := rfl

@[simp] theorem statTraceUpdate_trappedValue (s : AlgoState) (b f : Pop) :
    (statTraceUpdate s b f).trappedValue = s.trappedValue := rfl

@[simp] theorem statTraceUpdate_logTras (s : AlgoState) (b f : Pop) :
    (statTraceUpdate s b f).logTras = s.logTras := rfl

@[simp] theorem statTraceUpdate_verbose (s : AlgoState) (b f : Pop) :
    (statTraceUpdate s b f).verbose = s.verbose := rfl

@[simp] theorem statTraceUpdate_maxormins (s : AlgoState) (b f : Pop) :
    (statTraceUpdate s b f).maxormins = s.maxormins := rfl

@[simp] theorem statTraceUpdate_currentGen (s : AlgoState) (b f : Pop) :
    (statTraceUpdate s b f).currentGen = s.currentGen := rfl

@[simp] theorem statTraceUpdate_evalsNum (s : AlgoState) (b f : Pop) :
    (statTraceUpdate s b f).evalsNum = s.evalsNum := rfl

@[simp] theorem statTraceUpdate_passTime (s : AlgoState) (b f : Pop) :
    (statTraceUpdate s b f).passTime = s.passTime := rfl

@[simp] theorem statTraceUpdate_timeSlot (s : AlgoState) (b f : Pop) :
    (statTraceUpdate s b f).timeSlot = s.timeSlot := rfl

@[simp] theorem statTraceUpdate_trappedCount (s : AlgoState) (b f : Pop) :
    (statTraceUpdate s b f).trappedCount = s.trappedCount := rfl

@[simp] theorem statTraceUpdate_BestIndi (s : AlgoState) (b f : Pop) :
    (statTraceUpdate s b f).BestIndi = s.BestIndi := rfl

@[simp] theorem statTraceUpdate_log (s : AlgoState) (b f : Pop) :
    (statTraceUpdate s b f).log = s.log := rfl

theorem statLogUpdate_eq (s : AlgoState) (f : Pop) (i : Nat) (now : ℚ) :
    statLogUpdate s f i now =
      if s.logTras ≠ 0 ∧ s.currentGen % s.logTras = 0 then
        if s.verbose then tick (logging s f now) now else logging s f now
      else s := by
  unfold statLogUpdate
  split
  · simp only [display_state]
    rw [logging_verbose]
  · rfl

@[simp] theorem statLogUpdate_BestIndi (s : AlgoState) (f : Pop) (i : Nat) (now : ℚ) :
    (statLogUpdate s f i now).BestIndi = s.BestIndi := by
  rw [statLogUpdate_eq]; split
  · split <;> simp
  · rfl

@[simp] theorem statLogUpdate_trappedCount (s : AlgoState) (f : Pop) (i : Nat) (now : ℚ) :
    (statLogUpdate s f i now).trappedCount = s.trappedCount := by
  rw [statLogUpdate_eq]; split
  · split <;> simp
  · rfl

@[simp] theorem statLogUpdate_trace (s : AlgoState) (f : Pop) (i : Nat) (now : ℚ) :
    (statLogUpdate s f i now).trace = s.trace := by
  rw [statLogUpdate_eq]; split
  · split <;> simp
  · rfl

@[simp] theorem statLogUpdate_currentGen (s : AlgoState) (f : Pop) (i : Nat) (now : ℚ) :
    (statLogUpdate s f i now).currentGen = s.currentGen := by
  rw [statLogUpdate_eq]; split
  · split <;> simp
  · rfl

@[simp] theorem statLogUpdate_evalsNum (s : AlgoState) (f : Pop) (i : Nat) (now : ℚ) :
    (statLogUpdate s f i now).evalsNum = s.evalsNum := by
  rw [statLogUpdate_eq]; split
  · split <;> simp
  · rfl

@[simp] theorem statLogUpdate_MAXGEN (s : AlgoState) (f : Pop) (i : Nat) (now : ℚ) :
    (statLogUpdate s f i now).MAXGEN = s.MAXGEN := by
  rw [statLogUpdate_eq]; split
  · split <;> simp
  · rfl

@[simp] theorem statLogUpdate_MAXTIME (s : AlgoState) (f : Pop) (i : Nat) (now : ℚ) :
    (statLogUpdate s f i now).MAXTIME = s.MAXTIME := by
  rw [statLogUpdate_eq]; split
  · split <;> simp
  · rfl

@[simp] theorem statLogUpdate_maxTrappedCount (s : AlgoState) (f : Pop) (i : Nat) (now : ℚ) :
    (statLogUpdate s f i now).maxTrappedCount = s.maxTrappedCount := by
  rw [statLogUpdate_eq]; split
  · split <;> simp
  · rfl

@[simp] theorem statLogUpdate_trappedValue (s : AlgoState) (f : Pop) (i : Nat) (now : ℚ) :
    (statLogUpdate s f i now).trappedValue = s.trappedValue := by
  rw [statLogUpdate_eq]; split
  · split <;> simp
  · rfl

@[simp] theorem statLogUpdate_logTras (s : AlgoState) (f : Pop) (i : Nat) (now : ℚ) :
    (statLogUpdate s f i now).logTras = s.logTras := by
  rw [statLogUpdate_eq]; split
  · split <;> simp
  · rfl

@[simp] theorem statLogUpdate_verbose (s : AlgoState) (f : Pop) (i : Nat) (now : ℚ) :
    (statLogUpdate s f i now).verbose = s.verbose := by
  rw [statLogUpdate_eq]; split
  · split <;> simp
  · rfl

@[simp] theorem statLogUpdate_maxormins (s : AlgoState) (f : Pop) (i : Nat) (now : ℚ) :
    (statLogUpdate s f i now).maxormins = s.maxormins := by
  rw [statLogUpdate_eq]; split
  · split <;> simp
  · rfl

theorem statLogUpdate_log_gen (s : AlgoState) (f : Pop) (i : Nat) (now : ℚ) :
    (statLogUpdate s f i now).log.gen =
      if s.logTras ≠ 0 ∧ s.currentGen % s.logTras = 0 then s.log.gen ++ [s.currentGen]
      else s.log.gen := by
  rw [statLogUpdate_eq]; split
  · split <;> simp
  · rfl

theorem statLogUpdate_log_of_logTras0 (s : AlgoState) (f : Pop) (i : Nat) (now : ℚ)
    (h : s.logTras = 0) : (statLogUpdate s f i now).log = s.log := by
  rw [statLogUpdate_eq]
  simp [h]

theorem stat_feas (s : AlgoState) (pop : Pop) (i : Nat) (now : ℚ)
    (h : (feasibleIdx pop).length > 0) :
    stat s pop i now =
      draw (statLogUpdate
              (statTraceUpdate (statBestUpdate s (genBest pop)) (genBest pop) (feasSub pop))
              (feasSub pop) i now) now := by
  simp [stat, h]

theorem stat_eq_of_infeasible (s : AlgoState) (pop : Pop) (i : Nat) (now : ℚ)
    (h : feasibleIdx pop = []) : stat s pop i now = s := by
  simp [stat, h]

@[simp] theorem stat_currentGen (s : AlgoState) (pop : Pop) (i : Nat) (now : ℚ) :
    (stat s pop i now).currentGen = s.currentGen := by
  unfold stat; split <;> simp

@[simp] theorem stat_evalsNum (s : AlgoState) (pop : Pop) (i : Nat) (now : ℚ) :
    (stat s pop i now).evalsNum = s.evalsNum := by
  unfold stat; split <;> simp

@[simp] theorem stat_MAXGEN (s : AlgoState) (pop : Pop) (i : Nat) (now : ℚ) :
    (stat s pop i now).MAXGEN = s.MAXGEN := by
  unfold stat; split <;> simp

@[simp] theorem stat_MAXTIME (s : AlgoState) (pop : Pop) (i : Nat) (now : ℚ) :
    (stat s pop i now).MAXTIME = s.MAXTIME := by
  unfold stat; split <;> simp

@[simp] theorem stat_maxTrappedCount (s : AlgoState) (pop : Pop) (i : Nat) (now : ℚ) :
    (stat s pop i now).maxTrappedCount = s.maxTrappedCount := by
  unfold stat; split <;> simp

@[simp] theorem stat_trappedValue (s : AlgoState) (pop : Pop) (i : Nat) (now : ℚ) :
    (stat s pop i now).trappedValue = s.trappedValue := by
  unfold stat; split <;> simp

@[simp] theorem stat_logTras (s : AlgoState) (pop : Pop) (i : Nat) (now : ℚ) :
    (stat s pop i now).logTras = s.logTras := by
  unfold stat; split <;> simp

@[simp] theorem stat_verbose (s : AlgoState) (pop : Pop) (i : Nat) (now : ℚ) :
    (stat s pop i now).verbose = s.verbose := by
  unfold stat; split <;> simp

@[simp] theorem stat_maxormins (s : AlgoState) (pop : Pop) (i : Nat) (now : ℚ) :
    (stat s pop i now).maxormins = s.maxormins := by
  unfold stat; split <;> simp

theorem stat_BestIndi_of_feas (s : AlgoState) (pop : Pop) (i : Nat) (now : ℚ)
    (h : (feasibleIdx pop).length > 0) :
    (stat s pop i now).BestIndi = (statBestUpdate s (genBest pop)).BestIndi := by
  rw [stat_feas s pop i now h]; simp

theorem stat_trappedCount_of_feas (s : AlgoState) (pop : Pop) (i : Nat) (now : ℚ)
    (h : (feasibleIdx pop).length > 0) :
    (stat s pop i now).trappedCount = (statBestUpdate s (genBest pop)).trappedCount := by
  rw [stat_feas s pop i now h]; simp

theorem statBestUpdate_trappedCount_eq (s : AlgoState) (b : Pop) :
    (statBestUpdate s b).trappedCount =
      s.trappedCount +
        (if s.BestIndi.sizes ≠ 0 ∧ |statDelta s b| < s.trappedValue then 1 else 0) := by
  rw [statBestUpdate_eq]
  by_cases h0 : s.BestIndi.sizes = 0
  · simp [h0]
  · by_cases hd : statDelta s b > 0 <;> simp [h0, hd]

theorem statBestUpdate_BestIndi_eq (s : AlgoState) (b : Pop) :
    (statBestUpdate s b).BestIndi =
      if s.BestIndi.sizes = 0 then b
      else if statDelta s b > 0 then b else s.BestIndi := by
  rw [statBestUpdate_eq]
  by_cases h0 : s.BestIndi.sizes = 0
  · simp [h0]
  · by_cases hd : statDelta s b > 0 <;> simp [h0, hd]

theorem feasibleIdx_eq_nil_of_infeasible (pop : Pop) (cv : List (List ℚ))
    (hcv : pop.CV = some cv) (h : ∀ row ∈ cv, ∃ v ∈ row, 0 < v) :
    feasibleIdx pop = [] := by
  unfold feasibleIdx
  rw [hcv]
  rw [List.filter_eq_nil_iff]
  intro k hk
  rw [List.mem_range] at hk
  have hrow : cv.getD k [] ∈ cv := by
    rw [List.getD_eq_getElem cv [] hk]
    exact List.getElem_mem hk
  obtain ⟨v, hv, hvpos⟩ := h _ hrow
  simp only [List.all_eq_true, decide_eq_true_eq, not_forall]
  exact ⟨v, hv, by intro hle; linarith⟩

theorem stat_trappedCount_eq (s : AlgoState) (pop : Pop) (i : Nat) (now : ℚ) :
    (stat s pop i now).trappedCount =
      s.trappedCount +
        (if feasibleIdx pop ≠ [] ∧ s.BestIndi.sizes ≠ 0 ∧
              |statDelta s (genBest pop)| < s.trappedValue
         then 1 else 0) := by
  by_cases hfe : feasibleIdx pop = []
  · rw [stat_eq_of_infeasible s pop i now hfe]; simp [hfe]
  · have hl : (feasibleIdx pop).length > 0 := List.length_pos.mpr hfe
    rw [stat_trappedCount_of_feas s pop i now hl, statBestUpdate_trappedCount_eq]
    simp [hfe]

theorem stopCond_iff (s : AlgoState) :
    stopCond s = true ↔
      ((∃ t, s.MAXTIME = some t ∧ s.passTime ≥ t)
        ∨ s.currentGen + 1 ≥ s.MAXGEN ∨ s.trappedCount ≥ s.maxTrappedCount) := by
  unfold stopCond
  cases hM : s.MAXTIME <;> simp [hM, or_assoc]

theorem terminated_eq (s : AlgoState) (pop : Pop) (i : Nat) (now : ℚ) :
    terminated s pop i now =
      (if stopCond (tick (stat s pop i now) now) = true
       then (true, tick (stat s pop i now) now)
       else (false, { tick (stat s pop i now) now with
                        currentGen := (tick (stat s pop i now) now).currentGen + 1 })) := rfl

theorem terminated_fst (s : AlgoState) (pop : Pop) (i : Nat) (now : ℚ) :
    (terminated s pop i now).1 = stopCond (tick (stat s pop i now) now) := by
  rw [terminated_eq]
  cases h : stopCond (tick (stat s pop i now) now) <;> simp [h]

theorem terminated_trappedCount (s : AlgoState) (pop : Pop) (i : Nat) (now : ℚ) :
    (terminated s pop i now).2.trappedCount = (stat s pop i now).trappedCount := by
  rw [terminated_eq]
  by_cases hc : stopCond (tick (stat s pop i now) now) = true <;> simp [hc]

theorem terminated_trappedCount_mono (s : AlgoState) (pop : Pop) (i : Nat) (now : ℚ) :
    s.trappedCount ≤ (terminated s pop i now).2.trappedCount := by
  rw [terminated_trappedCount, stat_trappedCount_eq]
  exact Nat.le_add_right _ _

theorem terminated_BestIndi_infeasible (s : AlgoState) (p : Pop) (i : Nat) (t : ℚ)
    (h : feasibleIdx p = []) :
    (terminated s p i t).2.BestIndi = s.BestIndi := by
  rw [terminated_eq, stat_eq_of_infeasible s p i t h]
  by_cases hc : stopCond (tick s t) = true <;> simp [hc]

theorem foldl_infeasible_BestIndi (i : Nat) (runs : List (Pop × ℚ)) :
    ∀ st : AlgoState, (∀ pr ∈ runs, feasibleIdx pr.1 = []) →
      (runs.foldl (fun st pr => (terminated st pr.1 i pr.2).2) st).BestIndi = st.BestIndi := by
  induction runs with
  | nil => intro st _; rfl
  | cons hd tl ih =>
    intro st h
    rw [List.foldl_cons, ih _ (fun pr hm => h pr (List.mem_cons_of_mem _ hm)),
        terminated_BestIndi_infeasible st hd.1 i hd.2 (h hd (List.mem_cons_self _ _))]

theorem foldl_trappedCount_mono (i : Nat) (runs : List (Pop × ℚ)) :
    ∀ st : AlgoState,
      st.trappedCount ≤
        (runs.foldl (fun st pr => (terminated st pr.1 i pr.2).2) st).trappedCount := by
  induction runs with
  | nil => intro st; exact Nat.le_refl _
  | cons hd tl ih =>
    intro st
    rw [List.foldl_cons]
    exact Nat.le_trans (terminated_trappedCount_mono st hd.1 i hd.2) (ih _)

theorem finishing_snd_log (s : AlgoState) (pop : Pop) (i : Nat) (now : ℚ) :
    (finishing s pop i now).2.log =
      if (feasibleIdx pop).length > 0 ∧ s.logTras ≠ 0 ∧
          (s.log.gen = [] ∨ s.log.gen.getLast? ≠ some s.currentGen)
      then (logging s (feasSub pop) now).log
      else s.log := by
  by_cases h1 : (feasibleIdx pop).length > 0
  · by_cases h2 : s.logTras ≠ 0 ∧ (s.log.gen = [] ∨ s.log.gen.getLast? ≠ some s.currentGen)
    · simp only [finishing, if_pos h1, if_pos h2, if_pos (And.intro h1 h2)]
      by_cases hv : s.verbose <;> simp [hv]
    · have : ¬ ((feasibleIdx pop).length > 0 ∧ s.logTras ≠ 0 ∧
          (s.log.gen = [] ∨ s.log.gen.getLast? ≠ some s.currentGen)) := by
        intro hx; exact h2 hx.2
      simp only [finishing, if_pos h1, if_neg h2, if_neg this]
  · have : ¬ ((feasibleIdx pop).length > 0 ∧ s.logTras ≠ 0 ∧
        (s.log.gen = [] ∨ s.log.gen.getLast? ≠ some s.currentGen)) := by
      intro hx; exact h1 hx.1
    simp only [finishing, if_neg h1, if_neg this]

theorem finishing_fst (s : AlgoState) (pop : Pop) (i : Nat) (now : ℚ) :
    (finishing s pop i now).1 = (s.BestIndi, pop) := by
  by_cases h1 : (feasibleIdx pop).length > 0
  · by_cases h2 : s.logTras ≠ 0 ∧ (s.log.gen = [] ∨ s.log.gen.getLast? ≠ some s.currentGen)
    · simp only [finishing, if_pos h1, if_pos h2]
      by_cases hv : s.verbose <;> simp [hv]
    · simp only [finishing, if_pos h1, if_neg h2]
  · simp only [finishing, if_neg h1]

theorem adjObj_none (s : AlgoState) (b : Pop) (h : s.maxormins = none) :
    adjObj s b = b.ObjV.getD 0 0 := by
  unfold adjObj; rw [h]

theorem adjObj_some (s : AlgoState) (b : Pop) (m : ℚ) (h : s.maxormins = some m) :
    adjObj s b = b.ObjV.getD 0 0 * m := by
  unfold adjObj; rw [h]

theorem statDelta_none (s : AlgoState) (b : Pop) (h : s.maxormins = none) :
    statDelta s b = s.BestIndi.ObjV.getD 0 0 - b.ObjV.getD 0 0 := by
  unfold statDelta; rw [h]

theorem statDelta_some (s : AlgoState) (b : Pop) (m : ℚ) (h : s.maxormins = some m) :
    statDelta s b = (s.BestIndi.ObjV.getD 0 0 - b.ObjV.getD 0 0) * m := by
  unfold statDelta; rw [h]

/-! Claim theorems. -/

/-- Claim C2: for every task-state slice and every population with zero
feasible individuals (some constraint value is strictly positive in every row
of its `CV`), `stat` leaves `BestIndi`, `trappedCount`, `trace` and `log`
unchanged — it is a silent no-op that appends nothing and replaces nothing
(the whole state slice is unchanged). -/
theorem stat_infeasible_noop (s : AlgoState) (pop : Pop) (i : Nat) (now : ℚ)
    (cv : List (List ℚ)) (hcv : pop.CV = some cv)
    (h : ∀ row ∈ cv, ∃ v ∈ row, 0 < v) :
    (stat s pop i now).BestIndi = s.BestIndi ∧
    (stat s pop i now).trappedCount = s.trappedCount ∧
    (stat s pop i now).trace = s.trace ∧
    (stat s pop i now).log = s.log ∧
    stat s pop i now = s := by
  have he : stat s pop i now = s :=
    stat_eq_of_infeasible s pop i now (feasibleIdx_eq_nil_of_infeasible pop cv hcv h)
  exact ⟨by rw [he], by rw [he], by rw [he], by rw [he], he⟩

/-- Witness for C2: a concrete fully-infeasible population (`CV = [[1]]`). -/
theorem stat_infeasible_noop_witness :
    (stat demoConfig infeasPop 0 0).BestIndi = demoConfig.BestIndi ∧
    (stat demoConfig infeasPop 0 0).trappedCount = demoConfig.trappedCount ∧
    (stat demoConfig infeasPop 0 0).trace = demoConfig.trace ∧
    (stat demoConfig infeasPop 0 0).log = demoConfig.log ∧
    stat demoConfig infeasPop 0 0 = demoConfig :=
  stat_infeasible_noop demoConfig infeasPop 0 0 [[1]] rfl (by decide)

/-- Claim C6: `call_aimFunc` fails exactly when the task's problem is unbound,
or the evaluation left an `ObjV` that is not a 2-D ndarray of shape
`(pop.sizes, problem.M)`, or left a `CV` that is present but not a 2-D
ndarray with `pop.sizes` rows; on success the evaluation counter grows by
exactly the population size (a `None` counter counting as 0). -/
theorem call_aimFunc_spec (problem : Option ProblemSig) (evalsNum : Option Nat)
    (n : Nat) (res : EvalResult) :
    ((∃ msg, call_aimFunc problem evalsNum n res = Except.error msg) ↔
      (problem = none ∨
        ∃ pr, problem = some pr ∧
          (¬ legalObjV res.ObjV n pr.M ∨ ∃ c, res.CV = some c ∧ ¬ legalCV c n)))
    ∧ (∀ m, call_aimFunc problem evalsNum n res = Except.ok m →
        m = evalsNum.getD 0 + n) := by
  constructor
  · cases problem with
    | none => simp [call_aimFunc]
    | some pr =>
      by_cases ho : legalObjV res.ObjV n pr.M
      · cases hc : res.CV with
        | none => simp [call_aimFunc, ho, hc]
        | some c =>
          by_cases hcv : legalCV c n <;> simp [call_aimFunc, ho, hc, hcv]
      · simp [call_aimFunc, ho]
  · intro m hm
    cases problem with
    | none => simp [call_aimFunc] at hm
    | some pr =>
      cases evalsNum with
      | none =>
        by_cases ho : legalObjV res.ObjV n pr.M
        · cases hc : res.CV with
          | none =>
            simp [call_aimFunc, ho, hc] at hm
            simp only [Option.getD]
            omega
          | some c =>
            by_cases hcv : legalCV c n <;> simp [call_aimFunc, ho, hc, hcv] at hm
            simp only [Option.getD]
            omega
        · simp [call_aimFunc, ho] at hm
      | some k =>
        by_cases ho : legalObjV res.ObjV n pr.M
        · cases hc : res.CV with
          | none =>
            simp [call_aimFunc, ho, hc] at hm
            simp only [Option.getD]
            omega
          | some c =>
            by_cases hcv : legalCV c n <;> simp [call_aimFunc, ho, hc, hcv] at hm
            simp only [Option.getD]
            omega
        · simp [call_aimFunc, ho] at hm

/-- A well-shaped evaluation result for a size-3, one-objective population. -/
def okRes : EvalResult :=
  { ObjV := { isNdarray := true, ndim := 2, shape0 := 3, shape1 := 1 }, CV := none }

/-- Witness for C6: on a bound one-objective problem and a legal `ObjV`, the
counter `some 5` becomes `8 = 5 + 3` for a size-3 population. -/
theorem call_aimFunc_spec_witness : (8 : Nat) = (Option.getD (some 5) 0) + 3 :=
  (call_aimFunc_spec (some { M := 1 }) (some 5) 3 okRes).2 8 rfl

/-- Claim C10: `check` emits at most one warning per matrix per call; when a
matrix holds both NaN and Inf entries only its NaN warning is emitted and the
Inf condition is never reported.  (`check` is modelled as a pure function to
the warning list: it raises nothing and writes nothing to the population.) -/
theorem check_warn_spec (pop : CheckPop) :
    ((check pop).countP Warn.aboutObjV ≤ 1)
    ∧ ((check pop).countP Warn.aboutCV ≤ 1)
    ∧ (hasNaN pop.ObjV = true → hasInf pop.ObjV = true →
        Warn.objvNaN ∈ check pop ∧ Warn.objvInf ∉ check pop)
    ∧ (∀ cv, pop.CV = some cv → hasNaN cv = true → hasInf cv = true →
        Warn.cvNaN ∈ check pop ∧ Warn.cvInf ∉ check pop) := by
  obtain ⟨obj, ocv⟩ := pop
  cases ocv with
  | none =>
    by_cases h1 : hasNaN obj <;> by_cases h2 : hasInf obj <;>
      simp [check, h1, h2] <;> decide
  | some cv =>
    by_cases h1 : hasNaN obj <;> by_cases h2 : hasInf obj <;>
      by_cases h3 : hasNaN cv <;> by_cases h4 : hasInf cv <;>
        simp [check, h1, h2, h3, h4] <;> decide

/-- Witness for C10: a population whose `ObjV` and `CV` both contain a NaN
and an Inf gets exactly the two NaN warnings. -/
theorem check_warn_spec_witness :
    Warn.objvNaN ∈ check { ObjV := [[FVal.nan, FVal.inf]], CV := some [[FVal.inf, FVal.nan]] } ∧
    Warn.objvInf ∉ check { ObjV := [[FVal.nan, FVal.inf]], CV := some [[FVal.inf, FVal.nan]] } :=
  (check_warn_spec { ObjV := [[FVal.nan, FVal.inf]], CV := some [[FVal.inf, FVal.nan]] }).2.2.1
    (by decide) (by decide)

/-- Claim C1: `terminated` returns `true` iff, after the statistics update
(the post-`stat`, post-time-accounting state), one of the three stop
conditions holds: a set `MAXTIME` reached by `passTime`, or
`currentGen + 1 ≥ MAXGEN`, or `trappedCount ≥ maxTrappedCount`; a `false`
return increments `currentGen` by exactly 1 and a `true` return leaves it
unchanged. -/
theorem terminated_spec (s : AlgoState) (pop : Pop) (i : Nat) (now : ℚ) :
    (((terminated s pop i now).1 = true) ↔
      ((∃ t, s.MAXTIME = some t ∧ (tick (stat s pop i now) now).passTime ≥ t)
        ∨ s.currentGen + 1 ≥ s.MAXGEN
        ∨ (stat s pop i now).trappedCount ≥ s.maxTrappedCount))
    ∧ ((terminated s pop i now).1 = false →
        (terminated s pop i now).2.currentGen = s.currentGen + 1)
    ∧ ((terminated s pop i now).1 = true →
        (terminated s pop i now).2.currentGen = s.currentGen) := by
  refine ⟨?_, ?_, ?_⟩
  · rw [terminated_fst, stopCond_iff]
    simp
  · intro hf
    rw [terminated_fst] at hf
    rw [terminated_eq, hf]
    simp
  · intro ht
    rw [terminated_fst] at ht
    rw [terminated_eq, ht]
    simp

/-- Witness for C1: on `demoConfig` (generation 0, `MAXGEN = 11`) the call is
non-terminal and advances the generation counter to 1. -/
theorem terminated_spec_witness :
    (terminated demoConfig demoPop 0 0).2.currentGen = demoConfig.currentGen + 1 :=
  (terminated_spec demoConfig demoPop 0 0).2.1 (by with_unfolding_all decide)

/-- Claim C3: in `stat` with a non-empty feasible set, an empty stored best
is replaced unconditionally by the generation's best feasible individual with
the stagnation counter untouched; a non-empty stored best is replaced exactly
when `delta > 0`, where `delta` is the stored-minus-candidate objective
difference scaled by `maxormins` when present and raw otherwise; and the
direction-adjusted stored best objective never worsens across any `stat`
call. -/
theorem stat_best_spec (s : AlgoState) (pop : Pop) (i : Nat) (now : ℚ) :
    ((feasibleIdx pop ≠ []) → s.BestIndi.sizes = 0 →
      (stat s pop i now).BestIndi = genBest pop ∧
      (stat s pop i now).trappedCount = s.trappedCount)
    ∧ ((feasibleIdx pop ≠ []) → s.BestIndi.sizes ≠ 0 →
      (stat s pop i now).BestIndi =
        (if statDelta s (genBest pop) > 0 then genBest pop else s.BestIndi))
    ∧ (s.BestIndi.sizes ≠ 0 →
        adjObj s (stat s pop i now).BestIndi ≤ adjObj s s.BestIndi) := by
  refine ⟨?_, ?_, ?_⟩
  · intro hne h0
    have hl : (feasibleIdx pop).length > 0 := List.length_pos.mpr hne
    constructor
    · rw [stat_BestIndi_of_feas s pop i now hl, statBestUpdate_BestIndi_eq]
      simp [h0]
    · rw [stat_trappedCount_of_feas s pop i now hl, statBestUpdate_trappedCount_eq]
      simp [h0]
  · intro hne h0
    have hl : (feasibleIdx pop).length > 0 := List.length_pos.mpr hne
    rw [stat_BestIndi_of_feas s pop i now hl, statBestUpdate_BestIndi_eq]
    simp [h0]
  · intro h0
    by_cases hfe : feasibleIdx pop = []
    · rw [stat_eq_of_infeasible s pop i now hfe]
    · have hl : (feasibleIdx pop).length > 0 := List.length_pos.mpr hfe
      rw [stat_BestIndi_of_feas s pop i now hl, statBestUpdate_BestIndi_eq, if_neg h0]
      by_cases hd : statDelta s (genBest pop) > 0
      · rw [if_pos hd]
        cases hm : s.maxormins with
        | none =>
          rw [statDelta_none s (genBest pop) hm] at hd
          rw [adjObj_none s (genBest pop) hm, adjObj_none s s.BestIndi hm]
          linarith
        | some m =>
          rw [statDelta_some s (genBest pop) m hm] at hd
          rw [adjObj_some s (genBest pop) m hm, adjObj_some s s.BestIndi m hm]
          rw [sub_mul] at hd
          linarith
      · rw [if_neg hd]

/-- Witness for C3: from `bestConfig` (stored best 7, `maxormins = +1`) the
feasible `demoPop` (best 5) yields `delta = 2 > 0` and the best is replaced. -/
theorem stat_best_spec_witness :
    (stat bestConfig demoPop 0 0).BestIndi =
      (if statDelta bestConfig (genBest demoPop) > 0 then genBest demoPop
       else bestConfig.BestIndi) :=
  (stat_best_spec bestConfig demoPop 0 0).2.1 (by decide) (by decide)

/-- Claim C4: every `stat` call leaves `trappedCount` unchanged or increments
it by exactly 1; the increment happens precisely when the feasible set is
non-empty, the stored best was non-empty, and `|delta| < trappedValue`; and
`trappedCount` never decreases, including along any sequence of `terminated`
calls. -/
theorem stat_trapped_spec (s : AlgoState) (pop : Pop) (i : Nat) (now : ℚ) :
    ((stat s pop i now).trappedCount = s.trappedCount ∨
      (stat s pop i now).trappedCount = s.trappedCount + 1)
    ∧ ((stat s pop i now).trappedCount = s.trappedCount + 1 ↔
        (feasibleIdx pop ≠ [] ∧ s.BestIndi.sizes ≠ 0 ∧
          |statDelta s (genBest pop)| < s.trappedValue))
    ∧ s.trappedCount ≤ (stat s pop i now).trappedCount
    ∧ ∀ ops : List (Pop × ℚ),
        s.trappedCount ≤
          (ops.foldl (fun st pr => (terminated st pr.1 i pr.2).2) s).trappedCount := by
  rw [stat_trappedCount_eq]
  refine ⟨?_, ?_, Nat.le_add_right _ _, fun ops => foldl_trappedCount_mono i ops s⟩
  · by_cases hc : feasibleIdx pop ≠ [] ∧ s.BestIndi.sizes ≠ 0 ∧
        |statDelta s (genBest pop)| < s.trappedValue
    · right; rw [if_pos hc]
    · left; rw [if_neg hc]; rfl
  · by_cases hc : feasibleIdx pop ≠ [] ∧ s.BestIndi.sizes ≠ 0 ∧
        |statDelta s (genBest pop)| < s.trappedValue
    · rw [if_pos hc]; simp [hc]
    · rw [if_neg hc]; simp [hc]

/-- Witness for C4: the iff instantiated at `bestConfig` / `demoPop`, where
`|delta| = 2 ≥ trappedValue = 1` means no increment. -/
theorem stat_trapped_spec_witness :
    ¬ ((stat bestConfig demoPop 0 0).trappedCount = bestConfig.trappedCount + 1) :=
  fun h =>
    absurd (((stat_trapped_spec bestConfig demoPop 0 0).2.1).mp h).2.2
      (by with_unfolding_all decide)

set_option maxRecDepth 10000 in
/-- Claim C5: on a generation with a non-empty feasible set, `stat` appends a
log record exactly when `logTras ≠ 0` and `currentGen % logTras = 0`;
`logTras = 0` disables logging entirely for the task; and in the concrete
10-generation run `demoRun` (`logTras = 3`, generations 0-9) exactly
generations 0, 3, 6 and 9 are logged. -/
theorem stat_log_cadence (s : AlgoState) (pop : Pop) (i : Nat) (now : ℚ) :
    ((feasibleIdx pop ≠ []) →
      (stat s pop i now).log.gen.length =
        s.log.gen.length +
          (if s.logTras ≠ 0 ∧ s.currentGen % s.logTras = 0 then 1 else 0))
    ∧ (s.logTras = 0 → (stat s pop i now).log = s.log)
    ∧ (demoRun 10).log.gen = [0, 3, 6, 9] := by
  refine ⟨?_, ?_, by with_unfolding_all decide⟩
  · intro hne
    have hl : (feasibleIdx pop).length > 0 := List.length_pos.mpr hne
    rw [stat_feas s pop i now hl, draw_eq, tick_log, statLogUpdate_log_gen]
    simp only [statTraceUpdate_logTras, statBestUpdate_logTras,
               statTraceUpdate_currentGen, statBestUpdate_currentGen,
               statTraceUpdate_log, statBestUpdate_log]
    by_cases hcond : s.logTras ≠ 0 ∧ s.currentGen % s.logTras = 0
    · rw [if_pos hcond, if_pos hcond, List.length_append]
      rfl
    · rw [if_neg hcond, if_neg hcond]
      simp
  · intro h0
    by_cases hfe : feasibleIdx pop = []
    · rw [stat_eq_of_infeasible s pop i now hfe]
    · have hl : (feasibleIdx pop).length > 0 := List.length_pos.mpr hfe
      rw [stat_feas s pop i now hl, draw_eq, tick_log,
          statLogUpdate_log_of_logTras0 _ _ _ _ (by simp [h0])]
      simp

/-- Witness for C5: at generation 0 with `logTras = 3` the cadence condition
holds and one record is appended. -/
theorem stat_log_cadence_witness :
    (stat demoConfig demoPop 0 0).log.gen.length =
      demoConfig.log.gen.length +
        (if demoConfig.logTras ≠ 0 ∧ demoConfig.currentGen % demoConfig.logTras = 0
         then 1 else 0) :=
  (stat_log_cadence demoConfig demoPop 0 0).1 (by decide)

/-- Claim C7: `finishing` appends a final log record exactly when the
feasible subset is non-empty, logging is enabled, and the log is empty or its
most recent `gen` entry differs from `currentGen`; in particular when the
last logged generation equals the current one no duplicate is appended. -/
theorem finishing_log_spec (s : AlgoState) (pop : Pop) (i : Nat) (now : ℚ) :
    ((finishing s pop i now).2.log.gen.length =
      s.log.gen.length +
        (if feasibleIdx pop ≠ [] ∧ s.logTras ≠ 0 ∧
              (s.log.gen = [] ∨ s.log.gen.getLast? ≠ some s.currentGen)
          then 1 else 0))
    ∧ (s.log.gen.getLast? = some s.currentGen →
        (finishing s pop i now).2.log = s.log) := by
  have hiff : ((feasibleIdx pop).length > 0 ∧ s.logTras ≠ 0 ∧
      (s.log.gen = [] ∨ s.log.gen.getLast? ≠ some s.currentGen)) ↔
      (feasibleIdx pop ≠ [] ∧ s.logTras ≠ 0 ∧
      (s.log.gen = [] ∨ s.log.gen.getLast? ≠ some s.currentGen)) := by
    simp only [gt_iff_lt, List.length_pos]
  constructor
  · rw [finishing_snd_log]
    by_cases hcond : (feasibleIdx pop).length > 0 ∧ s.logTras ≠ 0 ∧
        (s.log.gen = [] ∨ s.log.gen.getLast? ≠ some s.currentGen)
    · rw [if_pos hcond, if_pos (hiff.mp hcond)]
      simp
    · rw [if_neg hcond, if_neg (fun hx => hcond (hiff.mpr hx))]
      simp
  · intro hlast
    have hneg : ¬ ((feasibleIdx pop).length > 0 ∧ s.logTras ≠ 0 ∧
        (s.log.gen = [] ∨ s.log.gen.getLast? ≠ some s.currentGen)) := by
      rintro ⟨h1, h2, h3⟩
      rcases h3 with h | h
      · rw [h] at hlast
        simp at hlast
      · exact h hlast
    rw [finishing_snd_log, if_neg hneg]

/-- Witness for C7: a state whose last log entry is for the current
generation gets no duplicate final record. -/
theorem finishing_log_spec_witness :
    (finishing loggedState demoPop 0 0).2.log = loggedState.log :=
  (finishing_log_spec loggedState demoPop 0 0).2 (by decide)

/-- Claim C8: `finishing` returns the pair `[BestIndi[i], pop]`, and after a
run in which no feasible individual was ever found (every generation fully
infeasible after initialization) the returned best individual is the empty
sentinel population of size 0, not a null value. -/
theorem finishing_returns_spec (s : AlgoState) (pop finalPop : Pop) (i : Nat)
    (now now0 : ℚ) (cfg : AlgoState) (runs : List (Pop × ℚ))
    (hinf : ∀ pr ∈ runs, feasibleIdx pr.1 = []) :
    ((finishing s pop i now).1 = (s.BestIndi, pop))
    ∧ ((finishing
          (runs.foldl (fun st pr => (terminated st pr.1 i pr.2).2)
            (initialization cfg now0))
          finalPop i now).1.1 = emptyPop)
    ∧ emptyPop.sizes = 0 := by
  refine ⟨finishing_fst s pop i now, ?_, rfl⟩
  rw [finishing_fst]
  rw [show ((runs.foldl (fun st pr => (terminated st pr.1 i pr.2).2)
      (initialization cfg now0)).BestIndi) = (initialization cfg now0).BestIndi
    from foldl_infeasible_BestIndi i runs _ hinf]
  rfl

/-- Witness for C8: after one fully-infeasible generation the finalizer
returns the empty sentinel best. -/
theorem finishing_returns_spec_witness :
    (finishing
        ([((infeasPop : Pop), (0 : ℚ))].foldl
          (fun st pr => (terminated st pr.1 0 pr.2).2)
          (initialization demoConfig 0))
        demoPop 0 0).1.1 = emptyPop :=
  (finishing_returns_spec demoConfig demoPop demoPop 0 0 0 demoConfig
    [(infeasPop, 0)] (by decide)).2.1

/-- Counterexample to C9 as stated: on an empty log `display` does not render
nothing — it still prints the task banner line. -/
theorem display_empty_log_not_silent :
    demoConfig.log.gen = [] ∧ displayRender 0 demoConfig ≠ [] := by decide

/-- Claim C9 (amended): `display(i)` emits the table header block exactly
when the log holds exactly one record, and on an empty log it renders only
the unconditional task banner line — no header block and no table row. -/
theorem display_render_spec (i : Nat) (s : AlgoState) :
    ((∃ hs, RenderItem.headerBlock hs ∈ displayRender i s) ↔ s.log.gen.length = 1)
    ∧ (s.log.gen = [] → displayRender i s = [RenderItem.taskBanner (i + 1)]) := by
  constructor
  · constructor
    · rintro ⟨hs, hmem⟩
      by_cases h1 : s.log.gen.length = 1
      · exact h1
      · exfalso
        unfold displayRender at hmem
        rw [if_neg h1] at hmem
        by_cases h2 : s.log.gen.length ≠ 0
        · rw [if_pos h2] at hmem
          simp at hmem
        · rw [if_neg h2] at hmem
          simp at hmem
    · intro h1
      refine ⟨displayKeys s.log, ?_⟩
      unfold displayRender
      rw [if_pos h1]
      simp
  · intro h0
    have hlen : s.log.gen.length = 0 := by rw [h0]; rfl
    unfold displayRender
    rw [if_neg (by omega : ¬ s.log.gen.length = 1),
        if_neg (by omega : ¬ s.log.gen.length ≠ 0)]
    simp

/-- Witness for the amended C9: a task state with an empty log renders
exactly the banner for task 8 (index 7). -/
theorem display_render_spec_witness :
    displayRender 7 demoConfig = [RenderItem.taskBanner 8] :=
  (display_render_spec 7 demoConfig).2 rfl

end MFEAIM
